import Mathlib

/-!
Verification of the `try-transform-mut` crate (src/lib.rs).

The crate defines a trait `TryTransform` with one method `try_transform`,
implemented for `&'a T` (shared references) and `&'a mut T` (exclusive
references).  We embed both implementations shallowly:

* a reference value is a non-null address (`Nat`, with `0` playing the role
  of the null pointer, which Rust references can never be);
* memory is a total map from addresses to pointee values, `Mem T`;
* the closure `f : FnOnce(Self) -> Option<B>` may have effects (mutating the
  pointee through an exclusive reference, or mutating captured state), so it
  is embedded as a state-threading function `f : ref → S → Option B × S`
  for an arbitrary state type `S`; claims about memory instantiate
  `S := Mem T`, claims about invocation counts instantiate `S` with a log;
* `Result<B, Self>` is `Except ref B` (`Ok ↦ Except.ok`,
  `Err ↦ Except.error`);
* the exclusive implementation's raw-pointer round-trip
  (`let this: *mut T = self as _; ... this.as_mut().unwrap()`) is embedded
  by capturing the address, and `as_mut` returns `none` exactly on the null
  address; the `unwrap` makes the whole computation an `Option`, where
  `none` models a panic.
-/

/-- A shared reference value `&'a T`: the address it designates.
Rust guarantees references are non-null, so the address is not `0`. -/
structure Ref where
  addr : Nat
  nonnull : addr ≠ 0

/-- An exclusive reference value `&'a mut T`: the address it designates.
Rust guarantees references are non-null, so the address is not `0`. -/
structure MutRef where
  addr : Nat
  nonnull : addr ≠ 0

/-- Memory holding pointee values of type `T` at every address. -/
def Mem (T : Type) : Type := Nat → T

/-- Dereference: read the pointee stored at address `a`. -/
def readMem {T : Type} (m : Mem T) (a : Nat) : T := m a

/-- Store `x` at address `a` (a mutation through a reference to `a`). -/
def writeMem {T : Type} (m : Mem T) (a : Nat) (x : T) : Mem T :=
  fun a' => if a' = a then x else m a'

/-- `<*mut T>::as_mut`: turn a raw pointer back into an exclusive
reference; yields `none` on the null pointer (address `0`). -/
def ptr_as_mut (p : Nat) : Option MutRef :=
  if h : p = 0 then none else some ⟨p, h⟩

/-- `impl<'a, T> TryTransform for &'a T` (src/lib.rs lines 50–62):
call `f(self)`; on `Some(v)` return `Ok(v)`, otherwise return
`Err(self)` — the original reference value, which being `Copy` was never
given up.  `f`'s effects on its captured state are threaded through `S`. -/
def try_transform_shared {B S : Type} (self : Ref)
    (f : Ref → S → Option B × S) (s : S) : Except Ref B × S :=
  match f self s with
  | (some v, s') => (Except.ok v, s')
  | (none, s') => (Except.error self, s')

/-- `impl<'a, T> TryTransform for &'a mut T` (src/lib.rs lines 64–78):
first capture the raw address (`let this: *mut T = self as _;`), then call
`f(self)`, moving the reference into `f`; on `Some(v)` return `Ok(v)`;
otherwise reconstitute a reference from the captured address with
`this.as_mut().unwrap()` and return it in `Err`.  The outer `Option` models
the possible `unwrap` panic (`none` = panic). -/
def try_transform_mut {B S : Type} (self : MutRef)
    (f : MutRef → S → Option B × S) (s : S) :
    Option (Except MutRef B × S) :=
  let thisPtr : Nat := self.addr
  match f self s with
  | (some v, s') => some (Except.ok v, s')
  | (none, s') =>
    match ptr_as_mut thisPtr with
    | some r => some (Except.error r, s')
    | none => none

/-- Reconstituting a reference from the address a reference designates
gives back that same reference value. -/
theorem ptr_as_mut_addr (r : MutRef) : ptr_as_mut r.addr = some r := by
  cases r with
  | mk a h => simp [ptr_as_mut, h]

/-- C1.  For every reference value and every single-use `f`,
`try_transform` invokes `f` exactly once, with that reference as argument
(the invocation log after the call is exactly `[self]`); `Some v` becomes
`Ok v`, and `None` becomes `Err` carrying the original reference value.
Both the shared and the exclusive implementation are covered; the state
logs each argument `f` is invoked with. -/
theorem try_transform_invokes_f_once (B : Type) (r : Ref) (rm : MutRef)
    (f0 : Ref → Option B) (g0 : MutRef → Option B) :
    try_transform_shared r (fun x l => (f0 x, l ++ [x])) ([] : List Ref) =
      ((match f0 r with
        | some v => Except.ok v
        | none => Except.error r), [r]) ∧
    try_transform_mut rm (fun x l => (g0 x, l ++ [x])) ([] : List MutRef) =
      some ((match g0 rm with
        | some v => Except.ok v
        | none => Except.error rm), [rm]) := by
  constructor
  · cases hf : f0 r with
    | some v => simp [try_transform_shared, hf]
    | none => simp [try_transform_shared, hf]
  · cases hg : g0 rm with
    | some v => simp [try_transform_mut, hg]
    | none => simp [try_transform_mut, hg, ptr_as_mut_addr]

/-- C2.  For every pointee type `T` and every `f` that declines,
`try_transform` on an exclusive reference returns in `Err` an exclusive
reference designating the same address as the original, and a write
performed through the returned reference is read back by the owner at the
original address. -/
theorem mut_decline_same_address_mutation_visible (T B : Type)
    (self : MutRef) (f : MutRef → Mem T → Option B × Mem T) (m m' : Mem T)
    (h : f self m = (none, m')) :
    ∃ r : MutRef,
      try_transform_mut self f m = some (Except.error r, m') ∧
      r.addr = self.addr ∧
      ∀ x : T, readMem (writeMem m' r.addr x) self.addr = x := by
  refine ⟨self, ?_, rfl, ?_⟩
  · simp [try_transform_mut, h, ptr_as_mut_addr]
  · intro x
    simp [readMem, writeMem]

/-- C2 witness: a concrete declining `f` on a concrete reference. -/
theorem mut_decline_same_address_mutation_visible_witness :
    ∃ r : MutRef,
      try_transform_mut (B := Nat) (S := Mem Nat) ⟨1, Nat.one_ne_zero⟩
          (fun _ m => (none, m)) (fun _ => (0 : Nat)) =
        some (Except.error r, fun _ => (0 : Nat)) ∧
      r.addr = (1 : Nat) ∧
      ∀ x : Nat, readMem (writeMem (fun _ => (0 : Nat)) r.addr x) 1 = x :=
  mut_decline_same_address_mutation_visible Nat Nat ⟨1, Nat.one_ne_zero⟩
    (fun _ m => (none, m)) (fun _ => 0) (fun _ => 0) rfl

/-- C3.  The exclusive implementation captures the designated address
before invoking `f`, and on the decline path the `Err` reference is the
one reconstituted (via `ptr_as_mut`) from exactly that captured address,
so it designates the location the reference designated before `f` ran. -/
theorem mut_decline_reconstituted_from_captured_address (T B : Type)
    (self : MutRef) (f : MutRef → Mem T → Option B × Mem T) (m m' : Mem T)
    (h : f self m = (none, m')) :
    ∃ r : MutRef,
      ptr_as_mut self.addr = some r ∧
      try_transform_mut self f m = some (Except.error r, m') ∧
      r.addr = self.addr := by
  refine ⟨self, ptr_as_mut_addr self, ?_, rfl⟩
  simp [try_transform_mut, h, ptr_as_mut_addr]

/-- C3 witness: concrete declining `f`; the `Err` reference comes from
`ptr_as_mut` applied to the captured address. -/
theorem mut_decline_reconstituted_from_captured_address_witness :
    ∃ r : MutRef,
      ptr_as_mut (1 : Nat) = some r ∧
      try_transform_mut (B := Nat) (S := Mem Nat) ⟨1, Nat.one_ne_zero⟩
          (fun _ m => (none, m)) (fun _ => (0 : Nat)) =
        some (Except.error r, fun _ => (0 : Nat)) ∧
      r.addr = (1 : Nat) :=
  mut_decline_reconstituted_from_captured_address Nat Nat
    ⟨1, Nat.one_ne_zero⟩ (fun _ m => (none, m)) (fun _ => 0) (fun _ => 0) rfl

/-- C4.  For every `f` on the exclusive path that mutates the pointee
(writing `u` of the old value) and succeeds with a derived value (`d` of
the old value), `try_transform` returns `Ok` of exactly the value `f`
computed, and the mutation is observable through the original owner: the
resulting memory holds the written value at the owner's address. -/
theorem mut_success_result_and_mutation_observable (T B : Type)
    (self : MutRef) (u : T → T) (d : T → B) (m : Mem T) :
    try_transform_mut self
        (fun r mm =>
          (some (d (readMem mm r.addr)),
           writeMem mm r.addr (u (readMem mm r.addr)))) m =
      some (Except.ok (d (readMem m self.addr)),
            writeMem m self.addr (u (readMem m self.addr))) ∧
    readMem (writeMem m self.addr (u (readMem m self.addr))) self.addr =
      u (readMem m self.addr) := by
  constructor
  · simp [try_transform_mut]
  · simp [readMem, writeMem]

/-- C5.  For every pointee type `T` and every `f` that declines given a
shared reference to a value `v`, `try_transform` returns in `Err` the very
same shared reference value, unchanged, which still dereferences to `v`
and so remains usable for further shared reads. -/
theorem shared_decline_identity (T B S : Type) (v : T) (self : Ref)
    (f : Ref → S → Option B × S) (s s' : S) (m : Mem T)
    (hf : f self s = (none, s')) (hm : readMem m self.addr = v) :
    ∃ r : Ref,
      try_transform_shared self f s = (Except.error r, s') ∧
      r = self ∧
      readMem m r.addr = v := by
  exact ⟨self, by simp [try_transform_shared, hf], rfl, hm⟩

/-- C5 witness: a concrete declining `f` on a concrete shared reference. -/
theorem shared_decline_identity_witness :
    ∃ r : Ref,
      try_transform_shared (B := Nat) (S := Unit) ⟨1, Nat.one_ne_zero⟩
          (fun _ s => (none, s)) () = (Except.error r, ()) ∧
      r = ⟨1, Nat.one_ne_zero⟩ ∧
      readMem (fun _ => (7 : Nat)) r.addr = 7 :=
  shared_decline_identity Nat Nat Unit 7 ⟨1, Nat.one_ne_zero⟩
    (fun _ s => (none, s)) () () (fun _ => 7) rfl rfl

/-- C6.  For every `f` on the shared path that succeeds with `some b`,
`try_transform` returns exactly `Ok b` — `f`'s result value — and no
reference is returned to the caller. -/
theorem shared_success_returns_f_result (B S : Type) (self : Ref)
    (f : Ref → S → Option B × S) (s s' : S) (b : B)
    (hf : f self s = (some b, s')) :
    try_transform_shared self f s = (Except.ok b, s') := by
  simp [try_transform_shared, hf]

/-- C6 witness: a concrete succeeding `f` on a concrete shared
reference. -/
theorem shared_success_returns_f_result_witness :
    try_transform_shared (S := Unit) ⟨1, Nat.one_ne_zero⟩
        (fun _ s => (some (42 : Nat), s)) () = (Except.ok 42, ()) :=
  shared_success_returns_f_result Nat Unit ⟨1, Nat.one_ne_zero⟩
    (fun _ s => (some 42, s)) () () 42 rfl

/-- C7.  `try_transform` never panics: for every input the exclusive
implementation produces a result (the `unwrap` on the pointer
reconstituted from the original reference cannot fail, because a pointer
captured from a valid — hence non-null — exclusive reference is never
null).  The shared implementation is total by its very type. -/
theorem try_transform_mut_never_panics (B S : Type) (self : MutRef)
    (f : MutRef → S → Option B × S) (s : S) :
    (try_transform_mut self f s).isSome = true := by
  unfold try_transform_mut
  rcases f self s with ⟨r, s'⟩
  cases r with
  | some v => rfl
  | none => simp [ptr_as_mut_addr]

/-- The machine state of the operational embedding of the exclusive
implementation's body: the exclusive references currently live (whether
held by the call frame or moved into `f` and not yet consumed by its
return), the raw address captured so far, the value bound by
`if let Some(v)`, and the closure's threaded state. -/
structure MState (B S : Type) where
  live : List MutRef
  captured : Option Nat
  fval : Option B
  st : S

/-- The statements the body of the exclusive implementation is built
from.  Ownership is explicit in their semantics (`execMut`): references
enter and leave the live set only through the generic meaning of each
statement, never by fiat. -/
inductive MutProg where
  | capturePtr (rest : MutProg)
  | invokeF (onSome : MutProg) (onNone : MutProg)
  | retOk
  | reconstituteThen (rest : MutProg)
  | retErr

/-- Generic semantics of `MutProg`: the call's outcome (`none` models a
panic or a stuck execution) together with the trace of machine states
entered, one per instant.  `capturePtr` derives the captured address from
the live reference and creates no reference; `invokeF` moves the live
reference into `f`, which consumes it by the time it returns (`FnOnce` by
value), so the post-return state drops it; `reconstituteThen` appends to
the live set whatever reference `ptr_as_mut` yields from the captured
address; `retErr` hands the live reference out.  The at-most-one-live
property is not built in: a program that, say, reconstituted before
invoking `f` would reach a state with two live references. -/
def execMut {B S : Type} (f : MutRef → S → Option B × S) :
    MutProg → MState B S → Option (Except MutRef B × S) × List (MState B S)
  | .capturePtr rest, σ =>
    let out := execMut f rest
      { σ with captured := σ.live.head?.map MutRef.addr }
    (out.1, σ :: out.2)
  | .invokeF onSome onNone, σ =>
    match σ.live with
    | [] => (none, [σ])
    | r :: others =>
      match f r σ.st with
      | (some v, s') =>
        let out := execMut f onSome
          { σ with live := others, fval := some v, st := s' }
        (out.1, σ :: out.2)
      | (none, s') =>
        let out := execMut f onNone { σ with live := others, st := s' }
        (out.1, σ :: out.2)
  | .retOk, σ =>
    (σ.fval.map (fun v => (Except.ok v, σ.st)), [σ])
  | .reconstituteThen rest, σ =>
    match σ.captured with
    | none => (none, [σ])
    | some p =>
      match ptr_as_mut p with
      | none => (none, [σ])
      | some r =>
        let out := execMut f rest { σ with live := σ.live ++ [r] }
        (out.1, σ :: out.2)
  | .retErr, σ =>
    match σ.live with
    | r :: _ => (some (Except.error r, σ.st), [σ])
    | [] => (none, [σ])

/-- The body of `try_transform` for `&'a mut T`, statement by statement
(src/lib.rs lines 70–76): capture the raw address
(`let this: *mut T = self as _;`); invoke `f`, moving `self` into it; on
`Some(v)` return `Ok(v)`; on `None` reconstitute a reference from the
captured address (`this.as_mut().unwrap()`) and return it in `Err`. -/
def mutImplBody : MutProg :=
  .capturePtr (.invokeF .retOk (.reconstituteThen .retErr))

/-- The machine state on entry to the call: `self`, received by value, is
the only live exclusive reference; nothing captured yet. -/
def initState {B S : Type} (self : MutRef) (s : S) : MState B S :=
  { live := [self], captured := none, fval := none, st := s }

/-- C8.  Running the statement-level embedding of the exclusive
implementation's body yields, for every `f` and state, exactly the result
of `try_transform_mut`, and at every instant of that execution at most
one exclusive reference to the target is live — each one designating the
original target — including the instant at which the `Err` reference has
just been reconstituted from the captured address (where `f`'s by-value
argument is already consumed). -/
theorem mut_at_most_one_live_exclusive_ref (B S : Type) (self : MutRef)
    (f : MutRef → S → Option B × S) (s : S) :
    (execMut f mutImplBody (initState self s)).1 =
      try_transform_mut self f s ∧
    ∀ σ ∈ (execMut f mutImplBody (initState self s)).2,
      σ.live.length ≤ 1 ∧ ∀ r ∈ σ.live, r.addr = self.addr := by
  rcases hfs : f self s with ⟨res, s'⟩
  cases res with
  | some v =>
    constructor
    · simp [execMut, mutImplBody, initState, try_transform_mut, hfs]
    · intro σ hσ
      simp [execMut, mutImplBody, initState, hfs] at hσ
      rcases hσ with h | h | h <;> subst h <;> simp
  | none =>
    constructor
    · simp [execMut, mutImplBody, initState, try_transform_mut, hfs,
        ptr_as_mut_addr]
    · intro σ hσ
      simp [execMut, mutImplBody, initState, hfs, ptr_as_mut_addr] at hσ
      rcases hσ with h | h | h | h <;> subst h <;> simp

/-- C8 witness: a concrete declined call; the machine agrees with
`try_transform_mut` and every entered state has at most one live
reference, to the original address. -/
theorem mut_at_most_one_live_exclusive_ref_witness :
    (execMut (B := Nat) (S := Unit) (fun _ s => (none, s)) mutImplBody
        (initState ⟨1, Nat.one_ne_zero⟩ ())).1 =
      try_transform_mut ⟨1, Nat.one_ne_zero⟩ (fun _ s => (none, s)) () ∧
    ∀ σ ∈ (execMut (B := Nat) (S := Unit) (fun _ s => (none, s)) mutImplBody
        (initState ⟨1, Nat.one_ne_zero⟩ ())).2,
      σ.live.length ≤ 1 ∧ ∀ r ∈ σ.live, r.addr = 1 :=
  mut_at_most_one_live_exclusive_ref Nat Unit ⟨1, Nat.one_ne_zero⟩
    (fun _ s => (none, s)) ()

/-- A map from `usize` keys to `usize` values, standing in for
`HashMap<usize, usize>` of the test module: an association list. -/
def Map : Type := List (Nat × Nat)

/-- `HashMap::get`-style lookup. -/
def mapLookup : Map → Nat → Option Nat
  | [], _ => none
  | (k', v) :: rest, k => if k' = k then some v else mapLookup rest k

/-- `HashMap::insert`: replaces the value of an existing key, otherwise
adds the binding. -/
def mapInsert : Map → Nat → Nat → Map
  | [], k, v => [(k, v)]
  | (k', v') :: rest, k, v =>
    if k' = k then (k, v) :: rest else (k', v') :: mapInsert rest k v

/-- A `&mut V` handle into a map's entry, as `HashMap::get_mut` returns:
the address of the map together with the entry's key. -/
def ValRef : Type := Nat × Nat

/-- Read the entry a `ValRef` designates. -/
def readVal (mem : Mem Map) (h : ValRef) : Option Nat :=
  mapLookup (readMem mem h.1) h.2

/-- Mutate, through a `ValRef`, the entry it designates. -/
def writeVal (mem : Mem Map) (h : ValRef) (x : Nat) : Mem Map :=
  writeMem mem h.1 (mapInsert (readMem mem h.1) h.2 x)

/-- `tests::get_default` (src/lib.rs lines 87–98): on a map behind an
exclusive reference, `map.try_transform(|m| m.get_mut(&key))`; on `Ok`
return the entry handle; on `Err` insert `V::default()` (`0` for `usize`)
and return `map.get_mut(&key).unwrap()`.  The outer `Option` models the
possible panics (of `try_transform` and of the final `unwrap`). -/
def get_default (self : MutRef) (key : Nat) (mem : Mem Map) :
    Option (ValRef × Mem Map) :=
  match try_transform_mut self
      (fun r mm =>
        ((mapLookup (readMem mm r.addr) key).map (fun _ => (r.addr, key)),
         mm)) mem with
  | some (Except.ok vref, mem') => some (vref, mem')
  | some (Except.error mapref, mem') =>
    let mem2 := writeMem mem' mapref.addr
      (mapInsert (readMem mem' mapref.addr) key 0)
    match mapLookup (readMem mem2 mapref.addr) key with
    | some _ => some ((mapref.addr, key), mem2)
    | none => none
  | none => none

/-- The exclusive reference to the scenario's map. -/
def mapRef : MutRef := ⟨1, Nat.one_ne_zero⟩

/-- The scenario's initial memory: the map is empty, so key `2` is
absent. -/
def mem0 : Mem Map := fun _ => []

/-- C9.  Get-or-default over a map with key `2` initially absent: the
first call inserts the default value `0` and returns a handle to it; after
mutating the entry to `5` through that handle, a second call returns a
handle to the same stored entry without inserting again (the map is
unchanged by the second call), and the mutation made through the first
handle is visible through the second. -/
theorem get_default_scenario :
    ∃ (h1 : ValRef) (mem1 : Mem Map),
      get_default mapRef 2 mem0 = some (h1, mem1) ∧
      readVal mem1 h1 = some 0 ∧
      readMem mem1 mapRef.addr = [(2, 0)] ∧
      ∃ (h2 : ValRef) (mem3 : Mem Map),
        get_default mapRef 2 (writeVal mem1 h1 5) = some (h2, mem3) ∧
        h2 = h1 ∧
        readMem mem3 mapRef.addr = readMem (writeVal mem1 h1 5) mapRef.addr ∧
        readVal mem3 h2 = some 5 := by
  refine ⟨(1, 2), writeMem mem0 1 [(2, 0)], rfl, rfl, rfl, ?_⟩
  exact ⟨(1, 2), writeVal (writeMem mem0 1 [(2, 0)]) (1, 2) 5,
    rfl, rfl, rfl, rfl⟩

/-- The simple scheme of the shared implementation transcribed onto an
exclusive reference — `if let Some(v) = f(self) { return Ok(v) }
Err(self)` with no raw-pointer round-trip.  This is the specification side
of the refinement claim, to be compared with `try_transform_mut`. -/
def try_transform_mut_simple {B S : Type} (self : MutRef)
    (f : MutRef → S → Option B × S) (s : S) : Except MutRef B × S :=
  match f self s with
  | (some v, s') => (Except.ok v, s')
  | (none, s') => (Except.error self, s')

/-- C10.  The exclusive implementation is observationally equivalent to
the shared implementation's simpler scheme applied to the exclusive
reference: for every `f` it returns (without panicking) `Ok b` exactly
when `f` yields `some b`, and otherwise `Err` of the very reference value
it was given — the raw-pointer round-trip adds no observable behavior. -/
theorem mut_equiv_shared_scheme (B S : Type) (self : MutRef)
    (f : MutRef → S → Option B × S) (s : S) :
    try_transform_mut self f s = some (try_transform_mut_simple self f s) := by
  unfold try_transform_mut try_transform_mut_simple
  rcases hf : f self s with ⟨r, s'⟩
  cases r with
  | some v => rfl
  | none => simp [ptr_as_mut_addr]
